import Mathlib

/-!
Verification of the gophkeeper CLI secret-transfer client.

Shallow embedding of the Go sources:
- `internal/domain/secret.go` — domain data model (`SecretType` is a Go
  string type; byte content is modelled as `List Nat`).
- `internal/interfaces/grpc/secret.go` — upload codec (`sendMetadataChunk`,
  `sendDataChunks`, `CreateSecretStream`) and the streamed download entry
  points (`GetLatestSecretStream`, `GetSecretStreamByVersion`).
- `internal/interfaces/grpc/stream_reader.go` — buffering download reader.
- the proto/domain mapping file (`mapProtoSecretTypeToDomain`,
  `mapDomainSecretTypeToProto`, `mapDomainSecretInfoToProtoCreateSecretInfoRequest`,
  `mapProtoGetSecretInfoResponseToDomainSecretInfo`).
- `internal/interfaces/grpc/interceptors` — auth interceptor.
- `internal/application/secret.go` — `SecretService.CreateSecret` dispatch.
- `internal/application/auth.go` and `internal/interfaces/grpc/auth.go` —
  login flow and token persistence effects.
-/

/-! ## Domain model (`internal/domain/secret.go`) -/

/-- Embeds `domain.SecretType`, a Go string type; its four declared constants follow. -/
def CredentialsSecretType : String := "credentials"

/-- Embeds `domain.PaymentCardSecretType`. -/
def PaymentCardSecretType : String := "payment_card"

/-- Embeds `domain.FileSecretType`. -/
def FileSecretType : String := "file"

/-- Embeds `domain.TextSecretType`. -/
def TextSecretType : String := "text"

/-- Embeds `domain.SecretInfo`. `Version` is Go `int32`, modelled as `Int`;
`CreatedAt` (a `time.Time`) is modelled as a `Nat` timestamp. -/
structure SecretInfo where
  name : String
  type : String
  metadata : String
  version : Int
  createdAt : Nat
deriving DecidableEq, Repr

/-- Embeds `domain.Secret`. The Go `Data` field is a string holding raw bytes;
bytes are modelled as `List Nat`. -/
structure Secret where
  info : SecretInfo
  data : List Nat
deriving DecidableEq, Repr

/-! ## Wire model

The generated protobuf package `pb` is not part of the handwritten sources;
only the pieces the client code touches are embedded. -/

/-- Modelled from the spec: wire `SecretType` enumeration value `CREDENTIALS`.
The generated protobuf enum is not in the repository snapshot; numeric values
follow the spec's declaration order {CREDENTIALS, PAYMENT_CARD, BINARY, TEXT}.
Only distinctness of the four values matters to the theorems below. -/
def SecretTypeCREDENTIALS : Int := 0

/-- Modelled from the spec: wire enumeration value `PAYMENT_CARD`. -/
def SecretTypePAYMENTCARD : Int := 1

/-- Modelled from the spec: wire enumeration value `BINARY`. -/
def SecretTypeBINARY : Int := 2

/-- Modelled from the spec: wire enumeration value `TEXT`. -/
def SecretTypeTEXT : Int := 3

/-- Embeds `pb.CreateSecretInfoRequest` as constructed by the client: the mapper
sets exactly the `Name`, `Type` and `Metadata` fields (no version field). -/
structure CreateSecretInfoRequest where
  name : String
  type : Int
  metadata : String
deriving DecidableEq, Repr

/-- Embeds `pb.GetSecretInfoResponse`: the fields the download path reads. -/
structure GetSecretInfoResponse where
  name : String
  type : Int
  metadata : String
  version : Int
  createdAt : Nat
deriving DecidableEq, Repr

/-- Embeds `mapProtoSecretTypeToDomain` (proto/domain mapping file): switch over the
wire enum, with `default: return "unknown"`. -/
def mapProtoSecretTypeToDomain (stype : Int) : String :=
  if stype = SecretTypeCREDENTIALS then CredentialsSecretType
  else if stype = SecretTypePAYMENTCARD then PaymentCardSecretType
  else if stype = SecretTypeBINARY then FileSecretType
  else if stype = SecretTypeTEXT then TextSecretType
  else "unknown"

/-- Embeds `mapDomainSecretTypeToProto`: switch over the domain type string, with
`default: return -1`. The case order follows the Go source. -/
def mapDomainSecretTypeToProto (domainType : String) : Int :=
  if domainType = CredentialsSecretType then SecretTypeCREDENTIALS
  else if domainType = TextSecretType then SecretTypeTEXT
  else if domainType = FileSecretType then SecretTypeBINARY
  else if domainType = PaymentCardSecretType then SecretTypePAYMENTCARD
  else -1

/-- Embeds `mapDomainSecretInfoToProtoCreateSecretInfoRequest`: builds the request
from `Name`, `Type` and `Metadata` only. -/
def mapDomainSecretInfoToProtoCreateSecretInfoRequest (secretInfo : SecretInfo) :
    CreateSecretInfoRequest :=
  { name := secretInfo.name
    type := mapDomainSecretTypeToProto secretInfo.type
    metadata := secretInfo.metadata }

/-- Embeds `mapProtoGetSecretInfoResponseToDomainSecretInfo`. -/
def mapProtoGetSecretInfoResponseToDomainSecretInfo (info : GetSecretInfoResponse) :
    SecretInfo :=
  { name := info.name
    metadata := info.metadata
    version := info.version
    type := mapProtoSecretTypeToDomain info.type
    createdAt := info.createdAt }

/-- One message of a streaming exchange: the `oneof Chunk` of
`pb.CreateSecretChunkRequest` / `pb.GetSecretResponse`, a tagged union of an
`Info` variant (payload type `I` differs between upload and download) and a
`Data` variant carrying bytes. -/
inductive ChunkMsg (I : Type) where
  | info (i : I)
  | data (d : List Nat)
deriving DecidableEq, Repr

/-- Whether a chunk message is the `Info` variant. -/
def ChunkMsg.isInfo {I : Type} : ChunkMsg I → Bool
  | .info _ => true
  | .data _ => false

/-- Whether a chunk message is the `Data` variant. -/
def ChunkMsg.isData {I : Type} : ChunkMsg I → Bool
  | .info _ => false
  | .data _ => true

/-! ## Upload codec (`internal/interfaces/grpc/secret.go`) -/

/-- Embeds `chunkSize = 1024 * 512` from `secret.go`. -/
def chunkSize : Nat := 1024 * 512

/-- Embeds `sendDataChunks`, which reads the byte source into a `chunkSize` buffer until
EOF, sending one `Data` payload per non-empty read. For a pure byte source
every read returns `min chunkSize remaining` bytes, so the payload sequence
is the greedy chunking of the source. This returns the payloads sent. -/
def sendDataChunks (s : List Nat) : List (List Nat) :=
  if h : s = [] then []
  else s.take chunkSize :: sendDataChunks (s.drop chunkSize)
termination_by s.length
decreasing_by
  simp only [List.length_drop]
  exact Nat.sub_lt (List.length_pos.mpr h) (by norm_num [chunkSize])

/-- Embeds `sendMetadataChunk`: the single leading `Info` message of an upload. -/
def sendMetadataChunk (secret : Secret) : ChunkMsg CreateSecretInfoRequest :=
  ChunkMsg.info (mapDomainSecretInfoToProtoCreateSecretInfoRequest secret.info)

/-- Embeds `CreateSecretStream`: the full message sequence a successful streamed
upload sends — the metadata chunk followed by the data chunks. -/
def createSecretStreamMsgs (secret : Secret) (src : List Nat) :
    List (ChunkMsg CreateSecretInfoRequest) :=
  sendMetadataChunk secret :: (sendDataChunks src).map (fun c => ChunkMsg.data c)

/-! ## Download reader (`internal/interfaces/grpc/stream_reader.go`) -/

/-- Embeds `secretStreamReader` state: the remaining messages of the gRPC stream
(`stream`, end of list = clean EOF from `Recv`), the `buffer`, and `index`. -/
structure ReaderSt (I : Type) where
  msgs : List (ChunkMsg I)
  buffer : List Nat
  index : Nat
deriving DecidableEq, Repr

/-- Result of one `Read` call: bytes delivered, clean end-of-stream, or the
"expected data chunk" protocol error. -/
inductive ReadRes where
  | bytes (b : List Nat)
  | eof
  | protoErr
deriving DecidableEq, Repr

/-- Number of bytes a `Read` outcome delivers. -/
def ReadRes.resLen : ReadRes → Nat
  | .bytes b => b.length
  | .eof => 0
  | .protoErr => 0

/-- Embeds `secretStreamReader.Read`, unrolled over the three state components.
`p` is the caller's buffer size. If buffered data remains, `copy` moves
`min p (buffer.length - index)` bytes and no receive happens. Otherwise the
next message is received: end-of-stream yields EOF; an `Info` message yields
the "expected data chunk" error; a `Data` message refills the buffer and the
code recurses into `Read`. The third component counts `stream.Recv` calls
performed by this `Read` call. -/
def readFromStream {I : Type} (p : Nat) :
    List (ChunkMsg I) → List Nat → Nat → ReadRes × ReaderSt I × Nat
  | msgs, buffer, index =>
    if index < buffer.length then
      (ReadRes.bytes ((buffer.drop index).take p),
        ⟨msgs, buffer, index + min p (buffer.length - index)⟩, 0)
    else
      match msgs with
      | [] => (ReadRes.eof, ⟨[], buffer, index⟩, 1)
      | ChunkMsg.info _ :: rest => (ReadRes.protoErr, ⟨rest, buffer, index⟩, 1)
      | ChunkMsg.data d :: rest =>
        let r := readFromStream p rest d 0
        (r.1, r.2.1, r.2.2 + 1)

/-- Embeds `secretStreamReader.Read` on a reader state. -/
def secretStreamReaderRead {I : Type} (p : Nat) (st : ReaderSt I) :
    ReadRes × ReaderSt I × Nat :=
  readFromStream p st.msgs st.buffer st.index

/-- Embeds `NewSecretStreamReader`: fresh reader over a stream (nil buffer, index 0). -/
def initialReaderState {I : Type} (msgs : List (ChunkMsg I)) : ReaderSt I :=
  ⟨msgs, [], 0⟩

/-- Repeatedly `Read` with request size `p`, concatenating the returned
fragments, until end-of-stream (`some` result) or a protocol error /
fuel exhaustion (`none`). -/
def drainFuel {I : Type} : Nat → Nat → ReaderSt I → Option (List Nat)
  | 0, _, _ => none
  | fuel + 1, p, st =>
    match secretStreamReaderRead p st with
    | (ReadRes.bytes b, st', _) => (drainFuel fuel p st').map (fun t => b ++ t)
    | (ReadRes.eof, _, _) => some []
    | (ReadRes.protoErr, _, _) => none

/-- Concatenation of the `Data` payloads of a message list. -/
def dataJoin {I : Type} : List (ChunkMsg I) → List Nat
  | [] => []
  | ChunkMsg.info _ :: rest => dataJoin rest
  | ChunkMsg.data d :: rest => d ++ dataJoin rest

/-- The bytes a reader state still holds: unconsumed buffer plus the data
payloads of the remaining messages. -/
def stVal {I : Type} (st : ReaderSt I) : List Nat :=
  st.buffer.drop st.index ++ dataJoin st.msgs

/-- No `Data` message of the list has an empty payload. -/
def noEmptyData {I : Type} (msgs : List (ChunkMsg I)) : Bool :=
  msgs.all fun m => match m with
    | ChunkMsg.data d => !d.isEmpty
    | ChunkMsg.info _ => true

/-! ## Streamed download entry points (`internal/interfaces/grpc/secret.go`) -/

/-- How opening a streamed download can fail: `transport` models a failed
first `Recv` ("failed to receive first chunk with metadata"), `protocol`
models `GetInfo() == nil` ("first chunk must contain secret info"). -/
inductive StreamOpenErr where
  | transport
  | protocol
deriving DecidableEq, Repr

/-- Embeds `GetLatestSecretStream` after the stream is open, as a function of the
messages the server sends: receive the first chunk; a missing chunk is a
transport failure; a non-`Info` first chunk is the protocol error; otherwise
return the mapped `SecretInfo` and a fresh reader over the rest. -/
def getLatestSecretStream (msgs : List (ChunkMsg GetSecretInfoResponse)) :
    Except StreamOpenErr (SecretInfo × ReaderSt GetSecretInfoResponse) :=
  match msgs with
  | [] => Except.error StreamOpenErr.transport
  | ChunkMsg.data _ :: _ => Except.error StreamOpenErr.protocol
  | ChunkMsg.info i :: rest =>
    Except.ok (mapProtoGetSecretInfoResponseToDomainSecretInfo i, initialReaderState rest)

/-- Embeds `GetSecretStreamByVersion`: identical first-chunk handling (the Go bodies
differ only in the request message sent before receiving). -/
def getSecretStreamByVersion (msgs : List (ChunkMsg GetSecretInfoResponse)) :
    Except StreamOpenErr (SecretInfo × ReaderSt GetSecretInfoResponse) :=
  match msgs with
  | [] => Except.error StreamOpenErr.transport
  | ChunkMsg.data _ :: _ => Except.error StreamOpenErr.protocol
  | ChunkMsg.info i :: rest =>
    Except.ok (mapProtoGetSecretInfoResponseToDomainSecretInfo i, initialReaderState rest)

/-! ## Auth interceptor (`internal/interfaces/grpc/interceptors`) -/

/-- Ways `TokenRepository.GetToken` can fail: `domain.ErrTokenNotFound`, or
any other read failure. -/
inductive TokenRepoErr where
  | tokenNotFound
  | readFailure
deriving DecidableEq, Repr

/-- Embeds `AuthInterceptor.injectAuthMetadata`: on a token-repository error the
error is returned; otherwise the metadata pair
`("authorization", "Bearer " + token)` is attached to the context. -/
def injectAuthMetadata (getToken : Except TokenRepoErr String) :
    Except TokenRepoErr (List (String × String)) :=
  match getToken with
  | Except.error e => Except.error e
  | Except.ok token => Except.ok [("authorization", "Bearer " ++ token)]

/-- Observable outcome of an intercepted call: either the interceptor failed
before dispatch (the invoker/streamer is never called, nothing transmitted),
or the underlying call was invoked with the given outgoing metadata. -/
inductive CallOutcome where
  | notInvoked (e : TokenRepoErr)
  | invoked (md : List (String × String))
deriving DecidableEq, Repr

/-- Embeds `AuthInterceptor.UnaryInterceptor`: inject metadata, fail the call on
error, else call the invoker with the augmented context. -/
def unaryInterceptorCall (getToken : Except TokenRepoErr String) : CallOutcome :=
  match injectAuthMetadata getToken with
  | Except.error e => CallOutcome.notInvoked e
  | Except.ok md => CallOutcome.invoked md

/-- Embeds `AuthInterceptor.StreamInterceptor`: same shape as the unary one; on
error the streamer is never called. -/
def streamInterceptorCall (getToken : Except TokenRepoErr String) : CallOutcome :=
  match injectAuthMetadata getToken with
  | Except.error e => CallOutcome.notInvoked e
  | Except.ok md => CallOutcome.invoked md

/-! ## Secret service dispatch (`internal/application/secret.go`) -/

/-- Which client call `SecretService.CreateSecret` performs: a single
buffered `CreateSecret` carrying the materialized secret, a streamed
`CreateSecretStream` handed the secret and the original byte source, or no
call at all. -/
inductive CreateCall where
  | bufferedCall (secret : Secret)
  | streamedCall (secret : Secret) (source : List Nat)
  | noCall
deriving DecidableEq, Repr

/-- Embeds `SecretService.CreateSecret`: switch on `secret.Info.Type`. For
credentials/payment-card, `io.ReadAll(contentReader)` materializes the
content into `secret.Data` and the buffered client call follows; for
file/text the streamed client call receives the original reader; any other
type falls through the switch and the function returns `nil`. The reader is
a pure byte source, so `ReadAll` yields it whole; the second component is
the returned error (`none` = Go `nil`). -/
def secretServiceCreateSecret (secret : Secret) (contentReader : List Nat) :
    CreateCall × Option String :=
  if secret.info.type = CredentialsSecretType ∨ secret.info.type = PaymentCardSecretType then
    (CreateCall.bufferedCall { secret with data := contentReader }, none)
  else if secret.info.type = FileSecretType ∨ secret.info.type = TextSecretType then
    (CreateCall.streamedCall secret contentReader, none)
  else
    (CreateCall.noCall, none)

/-! ## Login flow (`internal/interfaces/grpc/auth.go`,
`internal/application/auth.go`, `internal/infrastructure/persistence/token_repo.go`) -/

/-- gRPC status codes distinguished by `AuthClient.Login`; `otherCode`
covers every code hitting the `default` branch (e.g. `NotFound`). -/
inductive GrpcCode where
  | alreadyExists
  | invalidArgument
  | notFound
  | otherCode
deriving DecidableEq, Repr

/-- Errors `AuthClient.Login` can surface. -/
inductive LoginErr where
  | loginAlreadyExists
  | invalidCredentials
  | loginFailed
  | emptyToken
  | saveFailed
deriving DecidableEq, Repr

/-- Embeds `AuthClient.Login` as a function of the backend response: a status error
is translated (`AlreadyExists` → `ErrLoginAlreayExists`, `InvalidArgument` →
`ErrInvalidCredentials`, default → wrapped failure); a success with an empty
token is the "received empty token" error; otherwise the token is returned. -/
def authClientLogin (resp : Except GrpcCode String) : Except LoginErr String :=
  match resp with
  | Except.error GrpcCode.alreadyExists => Except.error LoginErr.loginAlreadyExists
  | Except.error GrpcCode.invalidArgument => Except.error LoginErr.invalidCredentials
  | Except.error GrpcCode.notFound => Except.error LoginErr.loginFailed
  | Except.error GrpcCode.otherCode => Except.error LoginErr.loginFailed
  | Except.ok token =>
    if token = "" then Except.error LoginErr.emptyToken else Except.ok token

/-- Embeds `TokenRepo.SaveToken` effect on the stored token: saving an empty token
fails and leaves the store unchanged; otherwise the token is written.
Returns (error?, new store content). -/
def saveTokenToStore (token : String) (store : Option String) :
    Option String × Option String :=
  if token = "" then (some "cannot save empty token", store)
  else (none, some token)

/-- Embeds `AuthService.Login`: call the client; on client error return it with the
store untouched (SaveToken is never reached); on success save the token.
Returns (error?, token store after the call). -/
def authServiceLogin (resp : Except GrpcCode String) (store : Option String) :
    Option LoginErr × Option String :=
  match authClientLogin resp with
  | Except.error e => (some e, store)
  | Except.ok token =>
    let s := saveTokenToStore token store
    match s.1 with
    | some _ => (some LoginErr.saveFailed, s.2)
    | none => (none, s.2)

/-! ## Chunking lemmas -/

theorem sendDataChunks_nil : sendDataChunks [] = [] := by
  simp [sendDataChunks]

theorem sendDataChunks_ne_nil (s : List Nat) (h : s ≠ []) :
    sendDataChunks s = s.take chunkSize :: sendDataChunks (s.drop chunkSize) := by
  rw [sendDataChunks]
  simp [h]

theorem sendDataChunks_flatten (s : List Nat) : (sendDataChunks s).flatten = s := by
  induction s using sendDataChunks.induct with
  | case1 => simp [sendDataChunks_nil]
  | case2 s h ih =>
    rw [sendDataChunks_ne_nil s h, List.flatten_cons, ih, List.take_append_drop]

theorem take_chunkSize_ne_nil (s : List Nat) (h : s ≠ []) : s.take chunkSize ≠ [] := by
  rw [Ne, List.take_eq_nil_iff]
  push_neg
  exact ⟨by norm_num [chunkSize], h⟩

theorem sendDataChunks_all_nonempty (s : List Nat) :
    (sendDataChunks s).all (fun c => !c.isEmpty) = true := by
  induction s using sendDataChunks.induct with
  | case1 => simp [sendDataChunks_nil]
  | case2 s h ih =>
    rw [sendDataChunks_ne_nil s h, List.all_cons, ih, Bool.and_true,
      Bool.not_eq_true', ← Bool.not_eq_true, List.isEmpty_iff]
    exact take_chunkSize_ne_nil s h

theorem sendDataChunks_length_eq (s : List Nat) :
    (sendDataChunks s).length =
      if s.length = 0 then 0 else (s.length + chunkSize - 1) / chunkSize := by
  induction s using sendDataChunks.induct with
  | case1 => simp [sendDataChunks_nil]
  | case2 s h ih =>
    have hpos : 0 < s.length := List.length_pos.mpr h
    have hk : 0 < chunkSize := by norm_num [chunkSize]
    have hd : (s.drop chunkSize).length = s.length - chunkSize := List.length_drop _ _
    rw [sendDataChunks_ne_nil s h, List.length_cons, ih, hd,
      if_neg (show ¬(s.length = 0) by omega)]
    by_cases hle : s.length ≤ chunkSize
    · rw [if_pos (show s.length - chunkSize = 0 by omega)]
      have h1 : s.length + chunkSize - 1 = (s.length - 1) + chunkSize := by omega
      rw [h1, Nat.add_div_right _ hk,
        Nat.div_eq_of_lt (show s.length - 1 < chunkSize by omega)]
    · rw [if_neg (show ¬(s.length - chunkSize = 0) by omega)]
      have h2 : s.length + chunkSize - 1
          = ((s.length - chunkSize) + chunkSize - 1) + chunkSize := by omega
      rw [h2, Nat.add_div_right _ hk]

/-! ## Reader lemmas -/

theorem dataJoin_map_data {I : Type} (l : List (List Nat)) :
    dataJoin (l.map (fun c => (ChunkMsg.data c : ChunkMsg I))) = l.flatten := by
  induction l with
  | nil => rfl
  | cons c l ih => simp only [List.map_cons, dataJoin, List.flatten_cons, ih]

theorem isData_map_data {I : Type} (l : List (List Nat)) :
    ∀ m ∈ l.map (fun c => (ChunkMsg.data c : ChunkMsg I)), m.isData = true := by
  intro m hm
  obtain ⟨c, _, rfl⟩ := List.mem_map.mp hm
  rfl

theorem countP_isInfo_map_data {I : Type} (l : List (List Nat)) :
    (l.map (fun c => (ChunkMsg.data c : ChunkMsg I))).countP (fun m => m.isInfo) = 0 := by
  induction l with
  | nil => rfl
  | cons c l ih => simp [List.countP_cons, ChunkMsg.isInfo, ih]

theorem readFromStream_buffered {I : Type} (p : Nat) (msgs : List (ChunkMsg I))
    (buffer : List Nat) (index : Nat) (hlt : index < buffer.length) :
    readFromStream p msgs buffer index =
      (ReadRes.bytes ((buffer.drop index).take p),
        ⟨msgs, buffer, index + min p (buffer.length - index)⟩, 0) := by
  cases msgs with
  | nil => simp [readFromStream, hlt]
  | cons m rest => cases m <;> simp [readFromStream, hlt]

theorem buffered_bytes_ne_nil (p : Nat) (buffer : List Nat) (index : Nat)
    (hp : 0 < p) (hlt : index < buffer.length) :
    (buffer.drop index).take p ≠ [] := by
  rw [Ne, List.take_eq_nil_iff]
  push_neg
  refine ⟨by omega, ?_⟩
  intro hnil
  have := List.length_drop index buffer
  rw [hnil] at this
  simp at this
  omega

theorem buffered_bytes_append (p : Nat) (buffer : List Nat) (index : Nat)
    (hlt : index < buffer.length) :
    (buffer.drop index).take p ++ buffer.drop (index + min p (buffer.length - index))
      = buffer.drop index := by
  have hdd : buffer.drop (index + min p (buffer.length - index))
      = (buffer.drop index).drop (min p (buffer.length - index)) := by
    rw [List.drop_drop, Nat.add_comm]
  rw [hdd]
  rcases le_or_lt p (buffer.length - index) with hle | hgt
  · rw [min_eq_left hle]
    exact List.take_append_drop p (buffer.drop index)
  · have hlen : (buffer.drop index).length = buffer.length - index :=
      List.length_drop index buffer
    rw [min_eq_right (le_of_lt hgt), List.take_of_length_le (by omega), ← hlen,
      List.drop_length, List.append_nil]

theorem readFromStream_spec {I : Type} (p : Nat) (hp : 0 < p) :
    ∀ (msgs : List (ChunkMsg I)) (buffer : List Nat) (index : Nat),
      (∀ m ∈ msgs, m.isData = true) →
      ((∃ st' k, readFromStream p msgs buffer index = (ReadRes.eof, st', k) ∧
          buffer.drop index ++ dataJoin msgs = []) ∨
        (∃ b st' k, readFromStream p msgs buffer index = (ReadRes.bytes b, st', k) ∧
          b ≠ [] ∧ b ++ stVal st' = buffer.drop index ++ dataJoin msgs ∧
          (∀ m ∈ st'.msgs, m.isData = true))) := by
  intro msgs
  induction msgs with
  | nil =>
    intro buffer index _
    by_cases hlt : index < buffer.length
    · right
      refine ⟨(buffer.drop index).take p, _, 0,
        readFromStream_buffered p [] buffer index hlt,
        buffered_bytes_ne_nil p buffer index hp hlt, ?_, ?_⟩
      · show (buffer.drop index).take p
            ++ (buffer.drop (index + min p (buffer.length - index))
              ++ dataJoin ([] : List (ChunkMsg I)))
          = buffer.drop index ++ dataJoin ([] : List (ChunkMsg I))
        rw [show dataJoin ([] : List (ChunkMsg I)) = [] from rfl,
          List.append_nil, List.append_nil]
        exact buffered_bytes_append p buffer index hlt
      · intro m hm
        cases hm
    · left
      refine ⟨⟨[], buffer, index⟩, 1, ?_, ?_⟩
      · simp [readFromStream, hlt]
      · rw [List.drop_eq_nil_of_le (le_of_not_lt hlt)]
        rfl
  | cons m rest ih =>
    intro buffer index hall
    by_cases hlt : index < buffer.length
    · right
      refine ⟨(buffer.drop index).take p, _, 0,
        readFromStream_buffered p (m :: rest) buffer index hlt,
        buffered_bytes_ne_nil p buffer index hp hlt, ?_, hall⟩
      show (buffer.drop index).take p
          ++ (buffer.drop (index + min p (buffer.length - index)) ++ dataJoin (m :: rest))
        = buffer.drop index ++ dataJoin (m :: rest)
      rw [← List.append_assoc, buffered_bytes_append p buffer index hlt]
    · have hdrop : buffer.drop index = [] := List.drop_eq_nil_of_le (le_of_not_lt hlt)
      cases m with
      | info i =>
        exact absurd (hall (ChunkMsg.info i) (List.mem_cons_self _ _))
          (by simp [ChunkMsg.isData])
      | data d =>
        have hall' : ∀ m ∈ rest, m.isData = true :=
          fun m hm => hall m (List.mem_cons_of_mem _ hm)
        rcases ih d 0 hall' with ⟨st', k, heq, hval⟩ | ⟨b, st', k, heq, hne, hvv, hall2⟩
        · left
          refine ⟨st', k + 1, by simp [readFromStream, hlt, heq], ?_⟩
          rw [hdrop, List.nil_append]
          show d ++ dataJoin rest = []
          rw [← List.drop_zero d]
          exact hval
        · right
          refine ⟨b, st', k + 1, by simp [readFromStream, hlt, heq], hne, ?_, hall2⟩
          rw [hdrop, List.nil_append]
          show b ++ stVal st' = d ++ dataJoin rest
          rw [← List.drop_zero d]
          exact hvv

theorem drainFuel_spec {I : Type} :
    ∀ (fuel p : Nat) (st : ReaderSt I), 0 < p →
      (∀ m ∈ st.msgs, m.isData = true) →
      (stVal st).length < fuel →
      drainFuel fuel p st = some (stVal st) := by
  intro fuel
  induction fuel with
  | zero =>
    intro p st _ _ hlen
    omega
  | succ fuel ih =>
    intro p st hp hall hlen
    rcases readFromStream_spec p hp st.msgs st.buffer st.index hall with
      ⟨st', k, heq, hval⟩ | ⟨b, st', k, heq, hne, hvv, hall2⟩
    · have hs : stVal st = [] := hval
      rw [hs]
      simp only [drainFuel, secretStreamReaderRead]
      rw [heq]
    · have hvv' : b ++ stVal st' = stVal st := hvv
      have hlt' : (stVal st').length < fuel := by
        have hsplit : (stVal st).length = b.length + (stVal st').length := by
          rw [← hvv', List.length_append]
        have hb : 0 < b.length := List.length_pos.mpr hne
        omega
      simp only [drainFuel, secretStreamReaderRead]
      rw [heq]
      show (drainFuel fuel p st').map (fun t => b ++ t) = some (stVal st)
      rw [ih p st' hp hall2 hlt', Option.map_some', hvv']

theorem readFromStream_len_le {I : Type} (p : Nat) :
    ∀ (msgs : List (ChunkMsg I)) (buffer : List Nat) (index : Nat),
      (readFromStream p msgs buffer index).1.resLen ≤ p := by
  intro msgs
  induction msgs with
  | nil =>
    intro buffer index
    by_cases hlt : index < buffer.length
    · rw [readFromStream_buffered p [] buffer index hlt]
      show ((buffer.drop index).take p).length ≤ p
      rw [List.length_take]
      exact min_le_left _ _
    · simp [readFromStream, hlt, ReadRes.resLen]
  | cons m rest ih =>
    intro buffer index
    by_cases hlt : index < buffer.length
    · rw [readFromStream_buffered p (m :: rest) buffer index hlt]
      show ((buffer.drop index).take p).length ≤ p
      rw [List.length_take]
      exact min_le_left _ _
    · cases m with
      | info i => simp [readFromStream, hlt, ReadRes.resLen]
      | data d =>
        have hred : (readFromStream p (ChunkMsg.data d :: rest) buffer index).1
            = (readFromStream p rest d 0).1 := by
          simp [readFromStream, hlt]
        rw [hred]
        exact ih d 0

theorem readFromStream_recv_le {I : Type} (p : Nat) (msgs : List (ChunkMsg I))
    (buffer : List Nat) (index : Nat) (h : noEmptyData msgs = true) :
    (readFromStream p msgs buffer index).2.2 ≤ 1 := by
  by_cases hlt : index < buffer.length
  · rw [readFromStream_buffered p msgs buffer index hlt]
    simp
  · cases msgs with
    | nil => simp [readFromStream, hlt]
    | cons m rest =>
      cases m with
      | info i => simp [readFromStream, hlt]
      | data d =>
        have hd : d ≠ [] := by
          intro hnil
          subst hnil
          have h2 := List.all_eq_true.mp h (ChunkMsg.data []) (List.mem_cons_self _ _)
          simp at h2
        have hdl : 0 < d.length := List.length_pos.mpr hd
        have hinner := readFromStream_buffered p rest d 0 hdl
        simp [readFromStream, hlt, hinner]

/-! ## Claim theorems -/

/-- Claim C1: for every byte source `S`, the concatenation of the Data
payloads produced by `sendDataChunks` is exactly `S`; feeding that chunk
sequence to the download reader and concatenating all fragments returned
until end-of-stream (any positive request size `p + 1`) reconstructs `S`
exactly; the empty source yields the `[Info]`-only message sequence and an
immediately-empty reader. -/
theorem uploadDownload_roundtrip (S : List Nat) (p : Nat) (secret : Secret) :
    (sendDataChunks S).flatten = S ∧
    drainFuel (S.length + 1) (p + 1)
      (initialReaderState
        ((sendDataChunks S).map (fun c => (ChunkMsg.data c : ChunkMsg GetSecretInfoResponse))))
      = some S ∧
    createSecretStreamMsgs secret [] = [sendMetadataChunk secret] ∧
    (secretStreamReaderRead (p + 1)
      (initialReaderState
        ((sendDataChunks ([] : List Nat)).map
          (fun c => (ChunkMsg.data c : ChunkMsg GetSecretInfoResponse))))).1 = ReadRes.eof := by
  have hst : stVal (initialReaderState
      ((sendDataChunks S).map (fun c => (ChunkMsg.data c : ChunkMsg GetSecretInfoResponse))))
      = S := by
    simp [stVal, initialReaderState, dataJoin_map_data, sendDataChunks_flatten]
  refine ⟨sendDataChunks_flatten S, ?_, ?_, ?_⟩
  · have hd := drainFuel_spec (S.length + 1) (p + 1)
      (initialReaderState
        ((sendDataChunks S).map (fun c => (ChunkMsg.data c : ChunkMsg GetSecretInfoResponse))))
      (Nat.succ_pos p) (isData_map_data (sendDataChunks S)) (by rw [hst]; omega)
    rw [hst] at hd
    exact hd
  · simp [createSecretStreamMsgs, sendDataChunks_nil]
  · simp [sendDataChunks_nil, secretStreamReaderRead, initialReaderState, readFromStream]

/-- Claim C2: a successful streamed upload sends exactly one Info message,
first, built from name, type and metadata only (in particular invariant
under any change of the version field), followed by the Data messages, each
non-empty; a zero-length source yields the Info message alone. -/
theorem createSecretStream_framing (secret : Secret) (src : List Nat) :
    (createSecretStreamMsgs secret src).head?
      = some (ChunkMsg.info (mapDomainSecretInfoToProtoCreateSecretInfoRequest secret.info)) ∧
    (createSecretStreamMsgs secret src).countP (fun m => m.isInfo) = 1 ∧
    (createSecretStreamMsgs secret src).tail
      = (sendDataChunks src).map (fun c => ChunkMsg.data c) ∧
    mapDomainSecretInfoToProtoCreateSecretInfoRequest secret.info
      = ⟨secret.info.name, mapDomainSecretTypeToProto secret.info.type,
          secret.info.metadata⟩ ∧
    (sendDataChunks src).all (fun c => !c.isEmpty) = true ∧
    (∀ v : Int,
      createSecretStreamMsgs
        ⟨⟨secret.info.name, secret.info.type, secret.info.metadata, v,
            secret.info.createdAt⟩, secret.data⟩ src
        = createSecretStreamMsgs secret src) ∧
    createSecretStreamMsgs secret [] = [sendMetadataChunk secret] := by
  refine ⟨rfl, ?_, rfl, rfl, sendDataChunks_all_nonempty src, fun v => rfl, ?_⟩
  · show (sendMetadataChunk secret
        :: (sendDataChunks src).map (fun c => ChunkMsg.data c)).countP (fun m => m.isInfo) = 1
    rw [List.countP_cons, countP_isInfo_map_data]
    simp [sendMetadataChunk, ChunkMsg.isInfo]
  · simp [createSecretStreamMsgs, sendDataChunks_nil]

/-- Claim C3: with the fixed 512 KiB chunk maximum, the upload codec sends
exactly `ceil (len S / chunkSize)` Data messages when `len S > 0` and zero
Data messages when `len S = 0`. -/
theorem sendDataChunks_count (s : List Nat) :
    (sendDataChunks s).length =
      if s.length = 0 then 0 else (s.length + chunkSize - 1) / chunkSize :=
  sendDataChunks_length_eq s

/-- Claim C4: a streamed download (latest or by-version) whose first received
message is a Data variant fails immediately with the protocol error — no
reader is returned and no byte reaches the caller. -/
theorem getSecretStream_dataFirst_protocolError (d : List Nat)
    (rest : List (ChunkMsg GetSecretInfoResponse)) :
    getLatestSecretStream (ChunkMsg.data d :: rest) = Except.error StreamOpenErr.protocol ∧
    getSecretStreamByVersion (ChunkMsg.data d :: rest) = Except.error StreamOpenErr.protocol :=
  ⟨rfl, rfl⟩

/-- Claim C5 counterexample: a `Read` call facing an empty Data chunk
followed by a non-empty one performs two receives from the stream, refuting
"at most one receive from the network channel per call" as universally
stated. -/
theorem secretStreamReaderRead_twoRecvs :
    (secretStreamReaderRead 1
      (⟨[ChunkMsg.data [], ChunkMsg.data [7]], [], 0⟩
        : ReaderSt GetSecretInfoResponse)).2.2 = 2 ∧
    ¬ ((secretStreamReaderRead 1
      (⟨[ChunkMsg.data [], ChunkMsg.data [7]], [], 0⟩
        : ReaderSt GetSecretInfoResponse)).2.2 ≤ 1) := by
  constructor
  · rfl
  · decide

/-- Claim C5 (amended): every `Read` call, on every state, returns at most
the requested number of bytes (unconditionally); and, provided the stream
contains no empty Data message, the call performs at most one receive from
the network channel. -/
theorem secretStreamReaderRead_bounds (p : Nat) (st : ReaderSt GetSecretInfoResponse) :
    (secretStreamReaderRead p st).1.resLen ≤ p ∧
    (noEmptyData st.msgs = true → (secretStreamReaderRead p st).2.2 ≤ 1) :=
  ⟨readFromStream_len_le p st.msgs st.buffer st.index,
    fun h => readFromStream_recv_le p st.msgs st.buffer st.index h⟩

/-- Claim C5 witness: the amended statement at a concrete state, with the
receive-bound proviso discharged there. -/
theorem secretStreamReaderRead_bounds_witness :
    (secretStreamReaderRead 2
        (⟨[ChunkMsg.data [5]], [], 0⟩ : ReaderSt GetSecretInfoResponse)).1.resLen ≤ 2 ∧
    noEmptyData (⟨[ChunkMsg.data [5]], [], 0⟩ : ReaderSt GetSecretInfoResponse).msgs = true ∧
    (secretStreamReaderRead 2
        (⟨[ChunkMsg.data [5]], [], 0⟩ : ReaderSt GetSecretInfoResponse)).2.2 ≤ 1 :=
  ⟨(secretStreamReaderRead_bounds 2
      (⟨[ChunkMsg.data [5]], [], 0⟩ : ReaderSt GetSecretInfoResponse)).1,
    by decide,
    (secretStreamReaderRead_bounds 2
      (⟨[ChunkMsg.data [5]], [], 0⟩ : ReaderSt GetSecretInfoResponse)).2 (by decide)⟩

/-- Claim C6: with no stored token, both interceptors fail the call before
the invoker/streamer runs (nothing is transmitted); with a stored token,
every outbound call carries the `authorization: Bearer <token>` metadata
entry. -/
theorem authInterceptor_tokenGate :
    unaryInterceptorCall (Except.error TokenRepoErr.tokenNotFound)
        = CallOutcome.notInvoked TokenRepoErr.tokenNotFound ∧
    streamInterceptorCall (Except.error TokenRepoErr.tokenNotFound)
        = CallOutcome.notInvoked TokenRepoErr.tokenNotFound ∧
    (∀ t : String,
      unaryInterceptorCall (Except.ok t)
          = CallOutcome.invoked [("authorization", "Bearer " ++ t)] ∧
      streamInterceptorCall (Except.ok t)
          = CallOutcome.invoked [("authorization", "Bearer " ++ t)]) :=
  ⟨rfl, rfl, fun t => ⟨rfl, rfl⟩⟩

/-- Claim C7: `SecretService.CreateSecret` dispatch — credentials and
payment-card secrets are materialized and sent through exactly one buffered
call; file and text secrets go to the streamed call with the original byte
source untouched. -/
theorem secretServiceCreateSecret_dispatch (name meta : String) (ver : Int) (ts : Nat)
    (data0 content : List Nat) :
    secretServiceCreateSecret ⟨⟨name, CredentialsSecretType, meta, ver, ts⟩, data0⟩ content
      = (CreateCall.bufferedCall ⟨⟨name, CredentialsSecretType, meta, ver, ts⟩, content⟩,
          none) ∧
    secretServiceCreateSecret ⟨⟨name, PaymentCardSecretType, meta, ver, ts⟩, data0⟩ content
      = (CreateCall.bufferedCall ⟨⟨name, PaymentCardSecretType, meta, ver, ts⟩, content⟩,
          none) ∧
    secretServiceCreateSecret ⟨⟨name, FileSecretType, meta, ver, ts⟩, data0⟩ content
      = (CreateCall.streamedCall ⟨⟨name, FileSecretType, meta, ver, ts⟩, data0⟩ content,
          none) ∧
    secretServiceCreateSecret ⟨⟨name, TextSecretType, meta, ver, ts⟩, data0⟩ content
      = (CreateCall.streamedCall ⟨⟨name, TextSecretType, meta, ver, ts⟩, data0⟩ content,
          none) :=
  ⟨rfl, rfl, rfl, rfl⟩

/-- Claim C8: the wire enumeration maps 1:1 to the domain enumeration —
encoding then decoding each of the four domain types is the identity, and
decoding any unmapped wire value yields the "unknown" sentinel. -/
theorem secretTypeMapping_roundtrip (v : Int)
    (h1 : v ≠ SecretTypeCREDENTIALS) (h2 : v ≠ SecretTypePAYMENTCARD)
    (h3 : v ≠ SecretTypeBINARY) (h4 : v ≠ SecretTypeTEXT) :
    mapProtoSecretTypeToDomain (mapDomainSecretTypeToProto CredentialsSecretType)
        = CredentialsSecretType ∧
    mapProtoSecretTypeToDomain (mapDomainSecretTypeToProto PaymentCardSecretType)
        = PaymentCardSecretType ∧
    mapProtoSecretTypeToDomain (mapDomainSecretTypeToProto FileSecretType)
        = FileSecretType ∧
    mapProtoSecretTypeToDomain (mapDomainSecretTypeToProto TextSecretType)
        = TextSecretType ∧
    mapProtoSecretTypeToDomain v = "unknown" := by
  refine ⟨rfl, rfl, rfl, rfl, ?_⟩
  unfold mapProtoSecretTypeToDomain
  rw [if_neg h1, if_neg h2, if_neg h3, if_neg h4]

/-- Claim C8 witness: the statement at the unmapped wire value 99. -/
theorem secretTypeMapping_roundtrip_witness :
    ((99 : Int) ≠ SecretTypeCREDENTIALS ∧ (99 : Int) ≠ SecretTypePAYMENTCARD ∧
      (99 : Int) ≠ SecretTypeBINARY ∧ (99 : Int) ≠ SecretTypeTEXT) ∧
    mapProtoSecretTypeToDomain 99 = "unknown" :=
  ⟨⟨by decide, by decide, by decide, by decide⟩,
    (secretTypeMapping_roundtrip 99 (by decide) (by decide) (by decide)
      (by decide)).2.2.2.2⟩

/-- Claim C9: when the login call to the backend fails with any status code,
`AuthService.Login` returns an error and the token store is left unchanged
(`SaveToken` is never reached). -/
theorem authServiceLogin_failureLeavesStore (c : GrpcCode) (store : Option String) :
    (∃ e, (authServiceLogin (Except.error c) store).1 = some e) ∧
    (authServiceLogin (Except.error c) store).2 = store := by
  cases c <;> exact ⟨⟨_, rfl⟩, rfl⟩

/-- Claim C10: a secret whose declared type is none of the four known values
falls through the dispatch switch: no client call is made and the function
returns success (`nil` error), silently discarding the secret. -/
theorem secretServiceCreateSecret_unknownType (secret : Secret) (content : List Nat)
    (h1 : secret.info.type ≠ CredentialsSecretType)
    (h2 : secret.info.type ≠ PaymentCardSecretType)
    (h3 : secret.info.type ≠ FileSecretType)
    (h4 : secret.info.type ≠ TextSecretType) :
    secretServiceCreateSecret secret content = (CreateCall.noCall, none) := by
  unfold secretServiceCreateSecret
  rw [if_neg (not_or.mpr ⟨h1, h2⟩), if_neg (not_or.mpr ⟨h3, h4⟩)]

/-- Claim C10 witness: a secret of declared type "unknown" is silently
discarded with a `nil` error. -/
theorem secretServiceCreateSecret_unknownType_witness :
    (("unknown" : String) ≠ CredentialsSecretType ∧
      ("unknown" : String) ≠ PaymentCardSecretType ∧
      ("unknown" : String) ≠ FileSecretType ∧
      ("unknown" : String) ≠ TextSecretType) ∧
    secretServiceCreateSecret ⟨⟨"n", "unknown", "", 0, 0⟩, []⟩ []
      = (CreateCall.noCall, none) :=
  ⟨⟨by decide, by decide, by decide, by decide⟩,
    secretServiceCreateSecret_unknownType ⟨⟨"n", "unknown", "", 0, 0⟩, []⟩ []
      (by decide) (by decide) (by decide) (by decide)⟩
